import Mathlib

set_option maxRecDepth 100000

/-!
Shallow embedding of the bazinga-site repository, for checking its design
specification against the code.

Parts embedded:
* `ABTest` — the deterministic experiment bucketing of
  `src/assets/site.js` (`ABTestManager.hashString`,
  `ABTestManager.selectVariantForUser`, `ABTestManager.assignUserToVariant`).
* `Tracking` — the client-side event batching/retry queue of
  `src/assets/server-tracking.js` (`ServerTracker.addToQueue`,
  `ServerTracker.flushQueue` and its failure/requeue branch).
* `Likes` — the like-counter serverless endpoint (`getLikeCount`,
  `incrementLike`, its request handler).
* `ContentWrite` — the post-creation and note-creation serverless endpoints
  (handler control flow, validation, error mapping, `commitToGitHub`).

JavaScript numbers are modelled exactly where the code stays within exact
double-precision integer arithmetic (the 32-bit string hash), and with `ℚ`
for the weight arithmetic of the bucketing walk.  Machine 32-bit wrap-around
(`hash & hash`, `hash << 5`) is modelled with explicit `% 2 ^ 32`.
-/

namespace ABTest

/-- JavaScript `ToInt32`: wrap an integer into `[-2^31, 2^31)`.  Used by the
bitwise operators `<<` and `&` in `hashString`. -/
def toInt32 (x : ℤ) : ℤ :=
  (x + 2 ^ 31) % 2 ^ 32 - 2 ^ 31

/-- One step of `ABTestManager.hashString`'s loop:
`hash = ((hash << 5) - hash) + char; hash = hash & hash`.
`hash << 5` wraps the shifted value to a 32-bit integer; the subtraction and
the addition of the character code are exact in doubles; `hash & hash`
wraps the result back to a 32-bit integer. -/
def hashStep (h : ℤ) (c : Char) : ℤ :=
  toInt32 (toInt32 (h * 32) - h + (c.toNat : ℤ))

/-- `ABTestManager.hashString`: fold `hashStep` over the string starting
from `0`, then `Math.abs`. -/
def hashString (s : String) : ℕ :=
  (s.data.foldl hashStep 0).natAbs

/-- The derived pseudo-random value of `selectVariantForUser`:
`const hash = this.hashString(this.userId + 'variant_selection')`
`const randomValue = (hash % 10000) / 10000`. -/
def randomValue (userId : String) : ℚ :=
  ((hashString (userId ++ "variant_selection") % 10000 : ℕ) : ℚ) / 10000

/-- One entry of an experiment's `variants` object: its key and its
configured `weight` (a percentage, e.g. `34`). -/
structure Variant where
  key : String
  weight : ℚ
  deriving DecidableEq, Repr

/-- The `for (const [key, variant] of variantEntries)` loop of
`selectVariantForUser`: accumulate `variant.weight / 100` and return the
first variant with `randomValue <= cumulativeWeight`. -/
def selectLoop (r : ℚ) : ℚ → List Variant → Option Variant
  | _, [] => none
  | cum, v :: rest =>
    let cum' := cum + v.weight / 100
    if r ≤ cum' then some v else selectLoop r cum' rest

/-- `ABTestManager.selectVariantForUser`: run the weighted walk on the
pseudo-random value derived from the user id; if the walk falls through
(weights summing below the random value), the code returns
`variantEntries[0]`, the FIRST variant.  An empty variant list (where the
JavaScript would throw on destructuring `variantEntries[0]`) is `none`. -/
def selectVariantForUser (userId : String) (variants : List Variant) :
    Option Variant :=
  match selectLoop (randomValue userId) 0 variants with
  | some v => some v
  | none => variants.head?

/-- A stored assignment record (the fields the claims need). -/
structure Assignment where
  experimentId : String
  variant : String
  deriving DecidableEq, Repr

/-- The assignment-relevant state of an `ABTestManager`:
its user id and its `userAssignments` map. -/
structure ManagerState where
  userId : String
  userAssignments : List (String × Assignment)
  deriving DecidableEq, Repr

/-- `this.userAssignments.get(experimentId)`. -/
def lookupAssignment (s : ManagerState) (experimentId : String) :
    Option Assignment :=
  (s.userAssignments.find? (fun p => p.1 == experimentId)).map Prod.snd

/-- `ABTestManager.assignUserToVariant`: reuse the stored assignment when
one exists, otherwise select a variant deterministically from the user id
and record the new assignment in `userAssignments`. -/
def assignUserToVariant (s : ManagerState) (experimentId : String)
    (variants : List Variant) : Option (Assignment × ManagerState) :=
  match lookupAssignment s experimentId with
  | some a => some (a, s)
  | none =>
    match selectVariantForUser s.userId variants with
    | none => none
    | some v =>
      let a : Assignment := ⟨experimentId, v.key⟩
      some (a, ⟨s.userId, (experimentId, a) :: s.userAssignments⟩)

/-- Cumulative weight of the first `n` variants, normalised as the code
normalises (`weight / 100`). -/
def cumWeight (variants : List Variant) (n : ℕ) : ℚ :=
  ((variants.take n).map (fun v => v.weight / 100)).sum

end ABTest

namespace Tracking

/-- An event held in `ServerTracker.eventQueue`.  `id` stands for the
payload (name/data/page context); `retryCount` is the `_retryCount`
property that `flushQueue`'s failure branch attaches, `0` when the
property is still unset. -/
structure TEvent where
  id : ℕ
  retryCount : ℕ
  deriving DecidableEq, Repr

/-- `this.batchSize = 10`. -/
def batchSize : ℕ := 10

/-- `this.maxRetries = 3`. -/
def maxRetries : ℕ := 3

/-- The queue-relevant state of a `ServerTracker`: its `eventQueue` and its
`isOnline` flag. -/
structure TrackerState where
  eventQueue : List TEvent
  isOnline : Bool
  deriving DecidableEq, Repr

/-- The send path of `ServerTracker.flushQueue`: return unchanged when the
queue is empty or the tracker is offline, otherwise splice the first
`batchSize` events off the queue and send them as one batch. -/
def flushQueue (s : TrackerState) : TrackerState × Option (List TEvent) :=
  if s.eventQueue.isEmpty || !s.isOnline then (s, none)
  else ({ s with eventQueue := s.eventQueue.drop batchSize },
        some (s.eventQueue.take batchSize))

/-- `ServerTracker.addToQueue`: push the event, then flush immediately when
the queue has reached `batchSize`. -/
def addToQueue (s : TrackerState) (e : TEvent) :
    TrackerState × Option (List TEvent) :=
  let s' := { s with eventQueue := s.eventQueue ++ [e] }
  if batchSize ≤ s'.eventQueue.length then flushQueue s' else (s', none)

/-- Run a sequence of `addToQueue` calls, collecting every batch that was
sent along the way. -/
def runEnqueues (s : TrackerState) : List TEvent → TrackerState × List (List TEvent)
  | [] => (s, [])
  | e :: rest =>
    let step := addToQueue s e
    let run := runEnqueues step.1 rest
    (run.1, step.2.toList ++ run.2)

/-- `event._retryCount++` before the event is unshifted back. -/
def bumpRetry (e : TEvent) : TEvent :=
  { e with retryCount := e.retryCount + 1 }

/-- The failure branch of `ServerTracker.flushQueue`'s `catch`: for each
event of the failed batch in order, requeue it at the front of the queue
with its retry count incremented if the count is still below `maxRetries`,
and drop it otherwise. -/
def requeueFailed (batch : List TEvent) (q : List TEvent) : List TEvent :=
  batch.foldl
    (fun acc e => if e.retryCount < maxRetries then bumpRetry e :: acc else acc) q

end Tracking

namespace Likes

/-- The `likes` table of the external store: association list from
`page_id` to `count` (row order models insertion order; queries read the
first matching row, as the handler reads `data[0]`). -/
abbrev Store := List (String × ℕ)

/-- First row matching `page_id=eq.⟨pid⟩`. -/
def lookupCount (store : Store) (pid : String) : Option ℕ :=
  (store.find? (fun p => p.1 == pid)).map Prod.snd

/-- `getLikeCount`: `data.length > 0 ? data[0].count : 0`. -/
def getLikeCount (store : Store) (pid : String) : ℕ :=
  match lookupCount store pid with
  | some c => c
  | none => 0

/-- The `PATCH likes?page_id=eq.⟨pid⟩` call: set the count of every row
with this page id. -/
def patchCount (store : Store) (pid : String) (n : ℕ) : Store :=
  store.map (fun p => if p.1 == pid then (p.1, n) else p)

/-- `incrementLike`: read the existing row; when present, `PATCH` it to
`count + 1` and return the new count; otherwise `POST` a fresh row with
count `1` and return `1`. -/
def incrementLike (store : Store) (pid : String) : ℕ × Store :=
  match lookupCount store pid with
  | some c => (c + 1, patchCount store pid (c + 1))
  | none => (1, store ++ [(pid, 1)])

/-- A request to the likes endpoint: its HTTP method and its `id` query
parameter (`none` models an absent or empty — falsy — `id`). -/
structure LikesReq where
  method : String
  id : Option String
  deriving DecidableEq, Repr

/-- The response fields the claims read: the HTTP status and the `count`
field of the JSON body (when present). -/
structure LikesResponse where
  status : ℕ
  count : Option ℕ
  deriving DecidableEq, Repr

/-- `id.startsWith('/') ? id.substring(1) : id` (expressed over the
character list so that it evaluates by reduction). -/
def cleanId (id : String) : String :=
  if id.data.head? = some '/' then String.mk (id.data.drop 1) else id

/-- The likes endpoint handler of the repository (`api/likes`):
CORS preflight, then the environment check, then the `id` check, then the
`GET`/`POST`/default switch.  `cfgPresent` models whether `SUPABASE_URL`
and `SUPABASE_ANON_KEY` are both set.  Note: the handler performs no
access-key check of any kind. -/
def likesHandler (cfgPresent : Bool) (req : LikesReq) (store : Store) :
    LikesResponse × Store :=
  if req.method == "OPTIONS" then (⟨200, none⟩, store)
  else if !cfgPresent then (⟨500, none⟩, store)
  else
    match req.id with
    | none => (⟨400, none⟩, store)
    | some id =>
      let cid := cleanId id
      if req.method == "POST" then
        let inc := incrementLike store cid
        (⟨200, some inc.1⟩, inc.2)
      else if req.method == "GET" then
        (⟨200, some (getLikeCount store cid)⟩, store)
      else (⟨405, none⟩, store)

end Likes

namespace ContentWrite

/-- The server-side environment of the content-write endpoints. -/
structure Env where
  githubToken : Option String
  githubRepo : Option String
  writeAccessKey : Option String
  nodeEnv : String
  deriving DecidableEq, Repr

/-- Outcome of the `commitToGitHub` call as seen by the handler's `catch`:
success, or a thrown error carrying the upstream HTTP status (when the
throw came from a non-ok GitHub response) and a message. -/
inductive CommitOutcome where
  | success (sha : String)
  | failure (status : Option ℕ) (msg : String)
  deriving DecidableEq, Repr

/-- The response fields the claims read: HTTP status, the `error` field,
and the `details` field of the 500 body. -/
structure WriteResponse where
  status : ℕ
  error : Option String
  details : Option String
  deriving DecidableEq, Repr

/-- JavaScript `String.prototype.trim`, expressed over the character list
so that it evaluates by reduction: strip leading and trailing whitespace. -/
def jsTrim (s : String) : String :=
  String.mk
    (((s.data.dropWhile Char.isWhitespace).reverse.dropWhile
        Char.isWhitespace).reverse)

/-- `!field || !String(field).trim()` for an optional string field. -/
def isBlank : Option String → Bool
  | none => true
  | some s => jsTrim s == ""

/-- A request to the post-creation endpoint (the fields the claims read:
method, `x-access-key` header, `title`, `body`).  `none` models an absent
or falsy field. -/
structure PostReq where
  method : String
  accessKey : Option String
  title : Option String
  body : Option String
  deriving DecidableEq, Repr

/-- A request to the note-creation endpoint (`title`, `content`, `tags`). -/
structure NoteReq where
  method : String
  accessKey : Option String
  title : Option String
  content : Option String
  tags : Option (List String)
  deriving DecidableEq, Repr

/-- Map the `catch` branch of both content-write handlers:
`error.status === 422` becomes a 400, `error.status === 403` becomes a 403
with a generic message, anything else becomes a 500 whose `details` field
is the error message exactly when `NODE_ENV === 'development'`. -/
def mapCommitFailure (env : Env) (status : Option ℕ) (msg : String) :
    WriteResponse :=
  if status == some 422 then ⟨400, some "文件已存在或路径无效", none⟩
  else if status == some 403 then
    ⟨403, some "GitHub 权限不足，请检查 token 权限", none⟩
  else
    ⟨500, some "服务器错误，请稍后重试",
      if env.nodeEnv == "development" then some msg else none⟩

/-- The post-creation handler (`api/posts` style endpoint).  Returns the
response together with whether the GitHub commit was reached (`true` iff
`commitToGitHub` was invoked, i.e. an external write was attempted). -/
def postHandler (env : Env) (req : PostReq) (commit : CommitOutcome) :
    WriteResponse × Bool :=
  if req.method == "OPTIONS" then (⟨200, none, none⟩, false)
  else if req.method != "POST" then (⟨405, some "仅支持 POST 请求", none⟩, false)
  else if env.githubToken.isNone || env.githubRepo.isNone ||
      env.writeAccessKey.isNone then
    (⟨500, some "服务器配置错误", none⟩, false)
  else if req.accessKey.isNone || req.accessKey != env.writeAccessKey then
    (⟨401, some "无效的访问密钥", none⟩, false)
  else if isBlank req.title then (⟨400, some "标题不能为空", none⟩, false)
  else if isBlank req.body then (⟨400, some "正文不能为空", none⟩, false)
  else
    match commit with
    | .success _ => (⟨200, none, none⟩, true)
    | .failure status msg => (mapCommitFailure env status msg, true)

/-- `tags.map(tag => tag.trim()).filter(tag => tag && tag.length > 0).slice(0, 10)`. -/
def cleanedTags (tags : List String) : List String :=
  ((tags.map jsTrim).filter (fun t => t ≠ "")).take 10

/-- The note-creation handler (`api/notes` style endpoint), with the same
convention as `postHandler`. -/
def noteHandler (env : Env) (req : NoteReq) (commit : CommitOutcome) :
    WriteResponse × Bool :=
  if req.method == "OPTIONS" then (⟨200, none, none⟩, false)
  else if req.method != "POST" then (⟨405, some "仅支持 POST 请求", none⟩, false)
  else if env.githubToken.isNone || env.githubRepo.isNone ||
      env.writeAccessKey.isNone then
    (⟨500, some "服务器配置错误", none⟩, false)
  else if req.accessKey.isNone || req.accessKey != env.writeAccessKey then
    (⟨401, some "无效的访问密钥", none⟩, false)
  else if isBlank req.title then (⟨400, some "标题不能为空", none⟩, false)
  else if isBlank req.content then (⟨400, some "笔记内容不能为空", none⟩, false)
  else if req.tags.isNone || req.tags == some [] then
    (⟨400, some "请至少选择一个标签", none⟩, false)
  else if (cleanedTags (req.tags.getD [])).isEmpty then
    (⟨400, some "请提供有效的标签", none⟩, false)
  else
    match commit with
    | .success _ => (⟨200, none, none⟩, true)
    | .failure status msg => (mapCommitFailure env status msg, true)

/-- The state of the target GitHub repository's files: association list
from path to the file's blob SHA. -/
abbrev RepoState := List (String × String)

/-- Whether the existence pre-check (`GET /repos/:repo/contents/:path`)
reports the path as present. -/
def pathExists (repo : RepoState) (p : String) : Bool :=
  repo.any (fun q => q.1 == p)

/-- `Date.now().toString().slice(-6)`: the last (at most) six characters of
the decimal timestamp. -/
def timestampSuffix (now : ℕ) : String :=
  let s := (toString now).data
  String.mk (s.drop (s.length - 6))

/-- `targetPath.lastIndexOf('.')` over the characters of the path. -/
def lastIndexOf (c : Char) : List Char → Option ℕ
  | [] => none
  | x :: xs =>
    match lastIndexOf c xs with
    | some i => some (i + 1)
    | none => if x == c then some 0 else none

/-- The collision-avoidance rename of the post-creation `commitToGitHub`:
insert `-⟨timestamp⟩` before the last `.` of the path, or append it when
the path has no dot. -/
def suffixedPath (p : String) (ts : String) : String :=
  match lastIndexOf '.' p.data with
  | some i => String.mk (p.data.take i ++ ('-' :: ts.data) ++ p.data.drop i)
  | none => String.mk (p.data ++ ('-' :: ts.data))

/-- Modelled from the spec: the GitHub contents API `PUT` that
`commitToGitHub` issues.  The repository does not implement this API; per
the spec (§6, "conditional on an existing-file SHA for updates") an update
of an existing path must carry that file's current SHA, so a payload
without a `sha` field creates the file only when the path is fresh and is
rejected (HTTP 422) when the path already exists; a stale SHA is rejected
with a conflict. -/
def githubPut (repo : RepoState) (path : String) (payloadSha : Option String)
    (newSha : String) : Except ℕ RepoState :=
  match (repo.find? (fun q => q.1 == path)).map Prod.snd with
  | some current =>
    match payloadSha with
    | some s => if s == current
        then .ok ((path, newSha) :: repo.filter (fun q => q.1 != path))
        else .error 409
    | none => .error 422
  | none => .ok ((path, newSha) :: repo)

/-- The `targetPath` that `commitToGitHub` ends up `PUT`ting to: the
requested path, renamed with the timestamp suffix when the existence
pre-check finds it already present. -/
def commitTargetPath (repo : RepoState) (filepath : String) (now : ℕ) :
    String :=
  if pathExists repo filepath then suffixedPath filepath (timestampSuffix now)
  else filepath

/-- `commitToGitHub` of the post-creation endpoint: probe the target path,
rename with a timestamp suffix when it already exists, then `PUT` a payload
that never contains a `sha` field.  Returns the committed path and the new
repository state on success. -/
def commitToGitHub (repo : RepoState) (filepath : String) (now : ℕ)
    (newSha : String) : Except ℕ (String × RepoState) :=
  (githubPut repo (commitTargetPath repo filepath now) none newSha).map
    (fun r => (commitTargetPath repo filepath now, r))

end ContentWrite

namespace ABTest

theorem cumWeight_nil (n : ℕ) : cumWeight [] n = 0 := by
  simp [cumWeight]

theorem cumWeight_zero (vs : List Variant) : cumWeight vs 0 = 0 := by
  simp [cumWeight]

theorem cumWeight_cons_succ (v : Variant) (vs : List Variant) (n : ℕ) :
    cumWeight (v :: vs) (n + 1) = v.weight / 100 + cumWeight vs n := by
  simp [cumWeight, List.take_succ_cons]

theorem selectLoop_eq_none_of_total_lt (r : ℚ) :
    ∀ (vs : List Variant) (cum : ℚ), (∀ v ∈ vs, 0 ≤ v.weight) →
      cum + cumWeight vs vs.length < r → selectLoop r cum vs = none := by
  intro vs
  induction vs with
  | nil => intro cum _ _; rfl
  | cons v rest ih =>
    intro cum hw hlt
    have hv : 0 ≤ v.weight := hw v (by simp)
    have hrest : ∀ u ∈ rest, 0 ≤ u.weight := fun u hu => hw u (by simp [hu])
    have hsum : 0 ≤ cumWeight rest rest.length := by
      apply List.sum_nonneg
      intro x hx
      simp only [List.mem_map] at hx
      obtain ⟨u, hu, rfl⟩ := hx
      have := hrest u (List.mem_of_mem_take hu)
      positivity
    rw [List.length_cons, cumWeight_cons_succ] at hlt
    have hlt' : cum + v.weight / 100 + cumWeight rest rest.length < r := by
      linarith
    have hnotle : ¬ r ≤ cum + v.weight / 100 := by linarith
    simp only [selectLoop, if_neg hnotle]
    exact ih (cum + v.weight / 100) hrest hlt'

theorem selectLoop_first_cover (r : ℚ) :
    ∀ (vs : List Variant) (cum : ℚ) (i : ℕ) (v : Variant),
      vs[i]? = some v → r ≤ cum + cumWeight vs (i + 1) →
      (∀ j < i, cum + cumWeight vs (j + 1) < r) →
      selectLoop r cum vs = some v := by
  intro vs
  induction vs with
  | nil => intro cum i v hget _ _; simp at hget
  | cons v0 rest ih =>
    intro cum i v hget hle hlt
    cases i with
    | zero =>
      simp only [List.getElem?_cons_zero, Option.some.injEq] at hget
      subst hget
      rw [cumWeight_cons_succ, cumWeight_zero, add_zero] at hle
      simp only [selectLoop, if_pos (by linarith : r ≤ cum + v0.weight / 100)]
    | succ i =>
      have h0 : cum + v0.weight / 100 < r := by
        have := hlt 0 (Nat.succ_pos i)
        rwa [cumWeight_cons_succ, cumWeight_zero, add_zero] at this
      have hnotle : ¬ r ≤ cum + v0.weight / 100 := by linarith
      simp only [selectLoop, if_neg hnotle]
      apply ih (cum + v0.weight / 100) i v
      · simpa using hget
      · rw [cumWeight_cons_succ] at hle
        linarith
      · intro j hj
        have := hlt (j + 1) (Nat.succ_lt_succ hj)
        rw [cumWeight_cons_succ] at this
        linarith

theorem hash_user_b :
    hashString ("user-b" ++ "variant_selection") % 10000 = 7214 := by decide

theorem randomValue_user_b : randomValue "user-b" = 3607 / 5000 := by
  unfold randomValue
  rw [hash_user_b]
  norm_num

theorem hash_u1 :
    hashString ("u1" ++ "variant_selection") % 10000 = 3958 := by decide

theorem randomValue_u1 : randomValue "u1" = 1979 / 5000 := by
  unfold randomValue
  rw [hash_u1]
  norm_num

/-- C1: the claim says that when the configured weights sum to less than 1
and the visitor's derived pseudo-random value exceeds the total cumulative
weight, the LAST variant of the list is returned.  Counterexample: for the
two-variant configuration `a`/`b` with weights 30/30 (total cumulative
weight 0.6 < 1) and visitor id `"user-b"` (derived value 0.7214 > 0.6),
`selectVariantForUser` does not return the last variant `b` — the
fall-through of the loop returns `variantEntries[0]`, the first variant. -/
theorem c1_counterexample :
    cumWeight [⟨"a", 30⟩, ⟨"b", 30⟩] 2 < 1 ∧
    cumWeight [⟨"a", 30⟩, ⟨"b", 30⟩] 2 < randomValue "user-b" ∧
    selectVariantForUser "user-b" [⟨"a", 30⟩, ⟨"b", 30⟩] ≠
      some ⟨"b", 30⟩ := by
  refine ⟨by norm_num [cumWeight], ?_, ?_⟩
  · rw [randomValue_user_b]; norm_num [cumWeight]
  · norm_num [selectVariantForUser, selectLoop, randomValue_user_b]
    decide

/-- C1 (amended): in the variant-bucketing function, for any variant
configuration with nonnegative weights summing to less than 1 and any
visitor id whose derived pseudo-random value exceeds the total cumulative
weight, the variant returned is the FIRST variant of the experiment's
variant list (the first variant absorbs the remainder). -/
theorem c1_first_absorbs_remainder (uid : String) (vs : List ABTest.Variant)
    (hw : ∀ v ∈ vs, 0 ≤ v.weight)
    (hlt : cumWeight vs vs.length < randomValue uid) :
    selectVariantForUser uid vs = vs.head? := by
  have hnone : selectLoop (randomValue uid) 0 vs = none := by
    apply selectLoop_eq_none_of_total_lt
    · exact hw
    · simpa using hlt
  simp [selectVariantForUser, hnone]

/-- Witness for the amended C1 at the counterexample's inputs: the first
variant `a` is returned. -/
theorem c1_first_absorbs_remainder_witness :
    selectVariantForUser "user-b" [⟨"a", 30⟩, ⟨"b", 30⟩] =
      some ⟨"a", 30⟩ := by
  have h := c1_first_absorbs_remainder "user-b" [⟨"a", 30⟩, ⟨"b", 30⟩]
    (by intro v hv; fin_cases hv <;> norm_num)
    (by rw [randomValue_user_b]; norm_num [cumWeight])
  simpa using h

/-- C3: the variant selection is a deterministic function of the visitor id
and the variant configuration alone — two manager states agreeing on the
visitor id select identically, whatever their other state — and a repeated
`assignUserToVariant` for the same experiment returns the assignment the
first call produced, unchanged. -/
theorem c3_selection_deterministic :
    (∀ (s s' : ManagerState) (vs : List Variant), s.userId = s'.userId →
        selectVariantForUser s.userId vs = selectVariantForUser s'.userId vs) ∧
    (∀ (s : ManagerState) (eId : String) (vs : List Variant)
        (a : Assignment) (s1 : ManagerState),
        assignUserToVariant s eId vs = some (a, s1) →
        assignUserToVariant s1 eId vs = some (a, s1)) := by
  constructor
  · intro s s' vs h
    rw [h]
  · intro s eId vs a s1 h
    unfold assignUserToVariant at h ⊢
    cases hla : lookupAssignment s eId with
    | some a0 =>
      rw [hla] at h
      obtain ⟨rfl, rfl⟩ : a0 = a ∧ s = s1 := by
        constructor <;> [skip; skip] <;> injection h with h'
        · exact congrArg Prod.fst h'
        · exact congrArg Prod.snd h'
      rw [hla]
    | none =>
      rw [hla] at h
      cases hsel : selectVariantForUser s.userId vs with
      | none => rw [hsel] at h; exact absurd h (by simp)
      | some v =>
        rw [hsel] at h
        simp only [Option.some.injEq, Prod.mk.injEq] at h
        obtain ⟨rfl, rfl⟩ := h
        have : lookupAssignment
            ⟨s.userId, (eId, ⟨eId, v.key⟩) :: s.userAssignments⟩ eId =
            some ⟨eId, v.key⟩ := by
          simp [lookupAssignment, List.find?]
        rw [this]

/-- Witness for C3 at a concrete state: assigning again after a fresh
assignment returns the stored assignment and leaves the state unchanged. -/
theorem c3_selection_deterministic_witness :
    assignUserToVariant ⟨"u1", [("exp", ⟨"exp", "b"⟩)]⟩ "exp"
        [⟨"a", 30⟩, ⟨"b", 70⟩] =
      some (⟨"exp", "b"⟩, ⟨"u1", [("exp", ⟨"exp", "b"⟩)]⟩) := by
  have h0 : assignUserToVariant ⟨"u1", []⟩ "exp" [⟨"a", 30⟩, ⟨"b", 70⟩] =
      some (⟨"exp", "b"⟩, ⟨"u1", [("exp", ⟨"exp", "b"⟩)]⟩) := by
    norm_num [assignUserToVariant, lookupAssignment, selectVariantForUser,
      selectLoop, randomValue_u1]
  exact c3_selection_deterministic.2 _ "exp" _ _ _ h0

/-- C8: the bucketing function derives from the visitor id a pseudo-random
value in `[0, 1)`, and whenever `i` is the first index whose cumulative
(normalised) weight reaches or exceeds that value, the variant at `i` is
returned. -/
theorem c8_weighted_walk (uid : String) (vs : List Variant) :
    0 ≤ randomValue uid ∧ randomValue uid < 1 ∧
    ∀ (i : ℕ) (v : Variant), vs[i]? = some v →
      randomValue uid ≤ cumWeight vs (i + 1) →
      (∀ j < i, cumWeight vs (j + 1) < randomValue uid) →
      selectVariantForUser uid vs = some v := by
  refine ⟨?_, ?_, ?_⟩
  · unfold randomValue
    positivity
  · unfold randomValue
    rw [div_lt_one (by norm_num)]
    exact_mod_cast Nat.mod_lt _ (by norm_num)
  · intro i v hget hle hlt
    have h := selectLoop_first_cover (randomValue uid) vs 0 i v hget
      (by simpa using hle) (by intro j hj; simpa using hlt j hj)
    simp [selectVariantForUser, h]

/-- Witness for C8: visitor `"u1"` has derived value 0.3958; with weights
30/70 the first covering index is 1, and variant `b` is returned. -/
theorem c8_weighted_walk_witness :
    selectVariantForUser "u1" [⟨"a", 30⟩, ⟨"b", 70⟩] = some ⟨"b", 70⟩ := by
  refine (c8_weighted_walk "u1" [⟨"a", 30⟩, ⟨"b", 70⟩]).2.2 1 ⟨"b", 70⟩ rfl ?_ ?_
  · rw [randomValue_u1]; norm_num [cumWeight]
  · intro j hj
    interval_cases j
    rw [randomValue_u1]; norm_num [cumWeight]

end ABTest

namespace Tracking

theorem runEnqueues_cons (s : TrackerState) (e : TEvent) (rest : List TEvent) :
    runEnqueues s (e :: rest) =
      ((runEnqueues (addToQueue s e).1 rest).1,
        (addToQueue s e).2.toList ++ (runEnqueues (addToQueue s e).1 rest).2) :=
  rfl

theorem runEnqueues_below_threshold :
    ∀ (es : List TEvent) (s : TrackerState),
      s.eventQueue.length + es.length < batchSize →
      runEnqueues s es = ({ s with eventQueue := s.eventQueue ++ es }, []) := by
  intro es
  induction es with
  | nil => intro s _; simp [runEnqueues]
  | cons e rest ih =>
    intro s hlen
    have hnot : ¬ batchSize ≤ (s.eventQueue ++ [e]).length := by
      simp only [List.length_append, List.length_cons, List.length_nil] at hlen ⊢
      omega
    have hstep : addToQueue s e = ({ s with eventQueue := s.eventQueue ++ [e] }, none) := by
      have h1 : ¬ batchSize ≤ s.eventQueue.length + 1 := by
        simpa using hnot
      simp [addToQueue, h1]
    have hrest : ({ s with eventQueue := s.eventQueue ++ [e] } :
        TrackerState).eventQueue.length + rest.length < batchSize := by
      simp only [List.length_append, List.length_cons, List.length_nil] at hlen ⊢
      omega
    rw [runEnqueues_cons, hstep]
    simp [ih _ hrest, List.append_assoc]

/-- C6: starting from an empty queue, any sequence of fewer than
`batchSize` (10) enqueues sends nothing (the events just sit in the queue
until the flush timer fires); and an enqueue that brings the queue from
`batchSize - 1` to `batchSize` events, while online, immediately sends the
whole queue as one batch. -/
theorem c6_batch_threshold :
    (∀ (es : List TEvent), es.length < batchSize →
        runEnqueues ⟨[], true⟩ es = (⟨es, true⟩, [])) ∧
    (∀ (s : TrackerState) (e : TEvent), s.isOnline = true →
        s.eventQueue.length = batchSize - 1 →
        addToQueue s e =
          (⟨(s.eventQueue ++ [e]).drop batchSize, s.isOnline⟩,
            some (s.eventQueue ++ [e]))) := by
  constructor
  · intro es hes
    have h := runEnqueues_below_threshold es ⟨[], true⟩ (by simpa using hes)
    simpa using h
  · intro s e hon hlen
    have hfull : (s.eventQueue ++ [e]).length = batchSize := by
      simp only [List.length_append, List.length_cons, List.length_nil]
      simp only [batchSize] at hlen ⊢
      omega
    have hle : batchSize ≤ (s.eventQueue ++ [e]).length := hfull.ge
    have hne : ((s.eventQueue ++ [e]).isEmpty = true) → False := by
      simp
    simp only [addToQueue, if_pos hle, flushQueue, hon]
    have htake : (s.eventQueue ++ [e]).take batchSize = s.eventQueue ++ [e] := by
      rw [← hfull, List.take_length]
    simp [htake]

/-- Witness for C6: nine enqueues send nothing; the tenth sends the full
batch of ten immediately. -/
theorem c6_batch_threshold_witness :
    runEnqueues (⟨[], true⟩ : TrackerState) (List.replicate 9 (⟨1, 0⟩ : TEvent)) =
      ((⟨List.replicate 9 (⟨1, 0⟩ : TEvent), true⟩ : TrackerState), []) ∧
    addToQueue (⟨List.replicate 9 (⟨1, 0⟩ : TEvent), true⟩ : TrackerState)
        (⟨2, 0⟩ : TEvent) =
      ((⟨(List.replicate 9 (⟨1, 0⟩ : TEvent) ++ [(⟨2, 0⟩ : TEvent)]).drop batchSize,
          true⟩ : TrackerState),
        some (List.replicate 9 (⟨1, 0⟩ : TEvent) ++ [(⟨2, 0⟩ : TEvent)])) :=
  ⟨c6_batch_threshold.1 _ (by simp [batchSize]),
   c6_batch_threshold.2 (⟨List.replicate 9 (⟨1, 0⟩ : TEvent), true⟩ : TrackerState)
     (⟨2, 0⟩ : TEvent) rfl (by simp [batchSize])⟩

theorem requeueFailed_eq (batch q : List TEvent) :
    requeueFailed batch q =
      (batch.filterMap fun e =>
        if e.retryCount < maxRetries then some (bumpRetry e) else none).reverse
        ++ q := by
  induction batch generalizing q with
  | nil => simp [requeueFailed]
  | cons e rest ih =>
    have hcons : requeueFailed (e :: rest) q =
        requeueFailed rest
          (if e.retryCount < maxRetries then bumpRetry e :: q else q) := rfl
    rw [hcons]
    by_cases h : e.retryCount < maxRetries
    · rw [if_pos h, ih, List.filterMap_cons]
      simp [h, List.append_assoc]
    · rw [if_neg h, ih, List.filterMap_cons]
      simp [h]

theorem mem_requeueFailed (batch q : List TEvent) (e : TEvent) :
    e ∈ requeueFailed batch q ↔
      (∃ e0 ∈ batch, e0.retryCount < maxRetries ∧ e = bumpRetry e0) ∨
        e ∈ q := by
  rw [requeueFailed_eq]
  simp only [List.mem_append, List.mem_reverse, List.mem_filterMap]
  constructor
  · rintro (⟨e0, he0, hf⟩ | hq)
    · left
      by_cases h : e0.retryCount < maxRetries
      · rw [if_pos h] at hf
        exact ⟨e0, he0, h, (Option.some_injective _ hf).symm⟩
      · rw [if_neg h] at hf
        exact absurd hf (by simp)
    · right; exact hq
  · rintro (⟨e0, he0, hrc, rfl⟩ | hq)
    · left; exact ⟨e0, he0, by rw [if_pos hrc]⟩
    · right; exact hq

/-- C7: when a batch's send fails, an event of the batch is put back on the
queue exactly when its retry count is still below `maxRetries` (3), with
the count incremented; an event at the ceiling is simply dropped.
Consequently retry counts never exceed the ceiling: if every queued and
batched event is within the ceiling before the failure, every queued event
is within it afterwards. -/
theorem c7_retry_ceiling :
    (∀ (batch q : List TEvent) (e : TEvent),
        e ∈ requeueFailed batch q ↔
          (∃ e0 ∈ batch, e0.retryCount < maxRetries ∧ e = bumpRetry e0) ∨
            e ∈ q) ∧
    (∀ (batch q : List TEvent),
        (∀ e ∈ batch, e.retryCount ≤ maxRetries) →
        (∀ e ∈ q, e.retryCount ≤ maxRetries) →
        ∀ e ∈ requeueFailed batch q, e.retryCount ≤ maxRetries) := by
  constructor
  · exact mem_requeueFailed
  · intro batch q _ hq e he
    rcases (mem_requeueFailed batch q e).mp he with ⟨e0, _, hrc, rfl⟩ | hmem
    · simp only [bumpRetry]
      omega
    · exact hq e hmem

/-- Witness for C7: in a failed batch holding one event at the ceiling and
one below it, the fresh event is requeued bumped and stays within the
ceiling (the event at the ceiling is dropped). -/
theorem c7_retry_ceiling_witness :
    (⟨2, 1⟩ : TEvent) ∈ requeueFailed [⟨1, 3⟩, ⟨2, 0⟩] [] ∧
    (⟨2, 1⟩ : TEvent).retryCount ≤ maxRetries := by
  have hmem : (⟨2, 1⟩ : TEvent) ∈ requeueFailed [⟨1, 3⟩, ⟨2, 0⟩] [] :=
    (c7_retry_ceiling.1 [⟨1, 3⟩, ⟨2, 0⟩] [] ⟨2, 1⟩).mpr
      (Or.inl ⟨⟨2, 0⟩, by decide, by decide, by decide⟩)
  exact ⟨hmem,
    c7_retry_ceiling.2 [⟨1, 3⟩, ⟨2, 0⟩] [] (by decide) (by decide) ⟨2, 1⟩ hmem⟩

end Tracking

namespace Likes

theorem lookupCount_patchCount (store : Store) (pid : String) (n : ℕ) :
    lookupCount (patchCount store pid n) pid =
      (lookupCount store pid).map fun _ => n := by
  induction store with
  | nil => rfl
  | cons p rest ih =>
    by_cases h : (p.1 == pid) = true
    · have hpat : (if p.1 == pid then (p.1, n) else p) = (p.1, n) := if_pos h
      have hL : List.find? (fun q => q.1 == pid)
          (List.map (fun q => if q.1 == pid then (q.1, n) else q) (p :: rest)) =
          some (p.1, n) := by
        rw [List.map_cons, hpat]
        exact List.find?_cons_of_pos _ (by simpa using h)
      have hR : List.find? (fun q => q.1 == pid) (p :: rest) = some p :=
        List.find?_cons_of_pos _ h
      simp only [lookupCount, patchCount]
      rw [hL, hR]
      rfl
    · have hpat : (if p.1 == pid then (p.1, n) else p) = p := if_neg h
      have hL : List.find? (fun q => q.1 == pid)
          (List.map (fun q => if q.1 == pid then (q.1, n) else q) (p :: rest)) =
          List.find? (fun q => q.1 == pid)
            (List.map (fun q => if q.1 == pid then (q.1, n) else q) rest) := by
        rw [List.map_cons, hpat]
        exact List.find?_cons_of_neg _ (by simpa using h)
      have hR : List.find? (fun q => q.1 == pid) (p :: rest) =
          List.find? (fun q => q.1 == pid) rest :=
        List.find?_cons_of_neg _ (by simpa using h)
      simp only [lookupCount, patchCount] at ih ⊢
      rw [hL, hR]
      exact ih

theorem lookupCount_append_fresh (store : Store) (pid : String)
    (h : lookupCount store pid = none) :
    lookupCount (store ++ [(pid, 1)]) pid = some 1 := by
  unfold lookupCount at h ⊢
  rw [List.find?_append]
  have hnone : store.find? (fun p => p.1 == pid) = none := by
    cases hf : store.find? (fun p => p.1 == pid) with
    | none => rfl
    | some p => rw [hf] at h; exact absurd h (by simp)
  rw [hnone]
  simp [List.find?]

/-- C4: against any store, a GET for an id with no stored record answers
count 0; a POST for an id stores its previous count plus exactly one
(creating the record with count 1 when absent), answers that new count,
and a subsequent GET for the same id answers the incremented value. -/
theorem c4_like_counter (store : Store) (id : String) :
    (lookupCount store (cleanId id) = none →
      likesHandler true ⟨"GET", some id⟩ store = (⟨200, some 0⟩, store)) ∧
    (∀ resp store',
      likesHandler true ⟨"POST", some id⟩ store = (resp, store') →
      resp = ⟨200, some (getLikeCount store (cleanId id) + 1)⟩ ∧
      lookupCount store' (cleanId id) =
        some (getLikeCount store (cleanId id) + 1) ∧
      likesHandler true ⟨"GET", some id⟩ store' =
        (⟨200, some (getLikeCount store (cleanId id) + 1)⟩, store')) := by
  constructor
  · intro hnone
    simp [likesHandler, getLikeCount, hnone]
  · intro resp store' h
    have hh : likesHandler true ⟨"POST", some id⟩ store =
        ((⟨200, some (incrementLike store (cleanId id)).1⟩ : LikesResponse),
          (incrementLike store (cleanId id)).2) := by
      simp [likesHandler]
    rw [hh] at h
    injection h with h1 h2
    subst h1
    subst h2
    cases hlc : lookupCount store (cleanId id) with
    | some c =>
      have hinc : incrementLike store (cleanId id) =
          (c + 1, patchCount store (cleanId id) (c + 1)) := by
        simp [incrementLike, hlc]
      have hget : getLikeCount store (cleanId id) = c := by
        simp [getLikeCount, hlc]
      have hlook : lookupCount (patchCount store (cleanId id) (c + 1))
          (cleanId id) = some (c + 1) := by
        rw [lookupCount_patchCount, hlc]
        rfl
      refine ⟨by rw [hinc, hget], ?_, ?_⟩
      · rw [hinc, hget]
        exact hlook
      · rw [hinc, hget]
        simp [likesHandler, getLikeCount, hlook]
    | none =>
      have hinc : incrementLike store (cleanId id) =
          (1, store ++ [(cleanId id, 1)]) := by
        simp [incrementLike, hlc]
      have hget : getLikeCount store (cleanId id) = 0 := by
        simp [getLikeCount, hlc]
      have hlook : lookupCount (store ++ [(cleanId id, 1)]) (cleanId id) =
          some 1 :=
        lookupCount_append_fresh store (cleanId id) hlc
      refine ⟨by rw [hinc, hget], ?_, ?_⟩
      · rw [hinc, hget]
        exact hlook
      · rw [hinc, hget]
        simp [likesHandler, getLikeCount, hlook]

/-- Witness for C4 on the empty store and id `"/posts/x/"`: GET answers 0,
POST answers 1 and stores the record, GET then answers 1. -/
theorem c4_like_counter_witness :
    likesHandler true ⟨"GET", some "/posts/x/"⟩ [] = (⟨200, some 0⟩, []) ∧
    likesHandler true ⟨"POST", some "/posts/x/"⟩ [] =
      (⟨200, some 1⟩, [("posts/x/", 1)]) ∧
    likesHandler true ⟨"GET", some "/posts/x/"⟩ [("posts/x/", 1)] =
      (⟨200, some 1⟩, [("posts/x/", 1)]) := by
  have hpost : likesHandler true ⟨"POST", some "/posts/x/"⟩ [] =
      (⟨200, some 1⟩, [("posts/x/", 1)]) := by decide
  have h := (c4_like_counter [] "/posts/x/").2 ⟨200, some 1⟩ [("posts/x/", 1)]
    hpost
  exact ⟨(c4_like_counter [] "/posts/x/").1 (by decide), hpost, h.2.2⟩

end Likes

namespace ContentWrite

theorem beq_post_options : (("POST" : String) == "OPTIONS") = false := by decide

theorem postHandler_reaches_commit (env : Env) (req : PostReq)
    (c : CommitOutcome) (hm : req.method = "POST")
    (ht : env.githubToken.isSome = true) (hr : env.githubRepo.isSome = true)
    (hk : env.writeAccessKey.isSome = true) (ha : req.accessKey.isSome = true)
    (hak : req.accessKey = env.writeAccessKey)
    (htitle : isBlank req.title = false) (hbody : isBlank req.body = false) :
    postHandler env req c =
      ((match c with
        | .success _ => (⟨200, none, none⟩ : WriteResponse)
        | .failure st msg => mapCommitFailure env st msg), true) := by
  obtain ⟨tok, htok⟩ := Option.isSome_iff_exists.mp ht
  obtain ⟨rep, hrep⟩ := Option.isSome_iff_exists.mp hr
  obtain ⟨key, hkey⟩ := Option.isSome_iff_exists.mp hk
  obtain ⟨ak, hka⟩ := Option.isSome_iff_exists.mp ha
  rw [hka, hkey] at hak
  obtain rfl : ak = key := by injection hak
  cases c with
  | success sha =>
    simp [postHandler, hm, htok, hrep, hkey, hka, htitle, hbody]
  | failure st msg =>
    simp [postHandler, hm, htok, hrep, hkey, hka, htitle, hbody]

theorem noteHandler_reaches_commit (env : Env) (req : NoteReq)
    (c : CommitOutcome) (hm : req.method = "POST")
    (ht : env.githubToken.isSome = true) (hr : env.githubRepo.isSome = true)
    (hk : env.writeAccessKey.isSome = true) (ha : req.accessKey.isSome = true)
    (hak : req.accessKey = env.writeAccessKey)
    (htitle : isBlank req.title = false)
    (hcontent : isBlank req.content = false)
    (htags : req.tags.isNone = false) (htags2 : (req.tags == some []) = false)
    (hclean : (cleanedTags (req.tags.getD [])).isEmpty = false) :
    noteHandler env req c =
      ((match c with
        | .success _ => (⟨200, none, none⟩ : WriteResponse)
        | .failure st msg => mapCommitFailure env st msg), true) := by
  obtain ⟨tok, htok⟩ := Option.isSome_iff_exists.mp ht
  obtain ⟨rep, hrep⟩ := Option.isSome_iff_exists.mp hr
  obtain ⟨key, hkey⟩ := Option.isSome_iff_exists.mp hk
  obtain ⟨ak, hka⟩ := Option.isSome_iff_exists.mp ha
  rw [hka, hkey] at hak
  obtain rfl : ak = key := by injection hak
  cases c with
  | success sha =>
    simp [noteHandler, hm, htok, hrep, hkey, hka, htitle, hcontent,
      htags, htags2, hclean]
  | failure st msg =>
    simp [noteHandler, hm, htok, hrep, hkey, hka, htitle, hcontent,
      htags, htags2, hclean]

/-- C2: the claim includes the like-counter increment among the endpoints
protected by the shared-secret header.  Counterexample: a POST to the likes
endpoint, which carries no access-key header at all (the handler never
reads one), is answered 200 — not 401 — and the external store IS written
(a fresh record with count 1 appears). -/
theorem c2_counterexample :
    Likes.likesHandler true ⟨"POST", some "page"⟩ [] =
      (⟨200, some 1⟩, [("page", 1)]) ∧
    (200 : ℕ) ≠ 401 := by
  exact ⟨by decide, by decide⟩

/-- C2 (amended): the post-creation and note-creation handlers answer 401
and attempt no external write whenever the `x-access-key` header is absent
or differs from the configured secret; the like-counter endpoint, however,
performs no shared-secret check — its POST succeeds regardless. -/
theorem c2_shared_secret :
    (∀ (env : Env) (req : PostReq) (c : CommitOutcome),
        req.method = "POST" → env.githubToken.isSome = true →
        env.githubRepo.isSome = true → env.writeAccessKey.isSome = true →
        (req.accessKey = none ∨ req.accessKey ≠ env.writeAccessKey) →
        postHandler env req c = (⟨401, some "无效的访问密钥", none⟩, false)) ∧
    (∀ (env : Env) (req : NoteReq) (c : CommitOutcome),
        req.method = "POST" → env.githubToken.isSome = true →
        env.githubRepo.isSome = true → env.writeAccessKey.isSome = true →
        (req.accessKey = none ∨ req.accessKey ≠ env.writeAccessKey) →
        noteHandler env req c = (⟨401, some "无效的访问密钥", none⟩, false)) ∧
    (∀ (store : Likes.Store) (id : String),
        (Likes.likesHandler true ⟨"POST", some id⟩ store).1.status = 200) := by
  refine ⟨?_, ?_, ?_⟩
  · intro env req c hm ht hr hk hbad
    obtain ⟨tok, htok⟩ := Option.isSome_iff_exists.mp ht
    obtain ⟨rep, hrep⟩ := Option.isSome_iff_exists.mp hr
    obtain ⟨key, hkey⟩ := Option.isSome_iff_exists.mp hk
    cases hka : req.accessKey with
    | none =>
      simp [postHandler, hm, htok, hrep, hkey, hka]
    | some ak =>
      have hne : ak ≠ key := by
        rcases hbad with h | h
        · rw [hka] at h; exact absurd h (by simp)
        · rw [hka, hkey] at h
          intro hcontra
          exact h (by rw [hcontra])
      simp [postHandler, hm, htok, hrep, hkey, hka, hne]
  · intro env req c hm ht hr hk hbad
    obtain ⟨tok, htok⟩ := Option.isSome_iff_exists.mp ht
    obtain ⟨rep, hrep⟩ := Option.isSome_iff_exists.mp hr
    obtain ⟨key, hkey⟩ := Option.isSome_iff_exists.mp hk
    cases hka : req.accessKey with
    | none =>
      simp [noteHandler, hm, htok, hrep, hkey, hka]
    | some ak =>
      have hne : ak ≠ key := by
        rcases hbad with h | h
        · rw [hka] at h; exact absurd h (by simp)
        · rw [hka, hkey] at h
          intro hcontra
          exact h (by rw [hcontra])
      simp [noteHandler, hm, htok, hrep, hkey, hka, hne]
  · intro store id
    simp [Likes.likesHandler]

/-- Witness for C2 (amended): concrete requests with a wrong and with a
missing key are answered 401 with no write; a concrete likes POST without
any key is answered 200. -/
theorem c2_shared_secret_witness :
    postHandler ⟨some "t", some "r", some "k", "production"⟩
        ⟨"POST", some "wrong", some "T", some "B"⟩ (.success "sha") =
      (⟨401, some "无效的访问密钥", none⟩, false) ∧
    noteHandler ⟨some "t", some "r", some "k", "production"⟩
        ⟨"POST", none, some "T", some "C", some ["tag"]⟩ (.success "sha") =
      (⟨401, some "无效的访问密钥", none⟩, false) ∧
    (Likes.likesHandler true ⟨"POST", some "p"⟩ []).1.status = 200 := by
  refine ⟨?_, ?_, c2_shared_secret.2.2 [] "p"⟩
  · exact c2_shared_secret.1 _ _ _ rfl rfl rfl rfl (Or.inr (by decide))
  · exact c2_shared_secret.2.1 _ _ _ rfl rfl rfl rfl (Or.inl rfl)

/-- C5: on an authenticated POST, a missing or blank required field (post:
title or body; note: title, content, or a missing/empty tags array) is
answered 400 with a descriptive error body, and `commitToGitHub` is never
invoked (no external write). -/
theorem c5_validation_no_write :
    (∀ (env : Env) (req : PostReq) (c : CommitOutcome),
        req.method = "POST" → env.githubToken.isSome = true →
        env.githubRepo.isSome = true → env.writeAccessKey.isSome = true →
        req.accessKey.isSome = true → req.accessKey = env.writeAccessKey →
        (isBlank req.title = true ∨ isBlank req.body = true) →
        (postHandler env req c).1.status = 400 ∧
        (postHandler env req c).1.error.isSome = true ∧
        (postHandler env req c).2 = false) ∧
    (∀ (env : Env) (req : NoteReq) (c : CommitOutcome),
        req.method = "POST" → env.githubToken.isSome = true →
        env.githubRepo.isSome = true → env.writeAccessKey.isSome = true →
        req.accessKey.isSome = true → req.accessKey = env.writeAccessKey →
        (isBlank req.title = true ∨ isBlank req.content = true ∨
          req.tags = none ∨ req.tags = some []) →
        (noteHandler env req c).1.status = 400 ∧
        (noteHandler env req c).1.error.isSome = true ∧
        (noteHandler env req c).2 = false) := by
  constructor
  · intro env req c hm ht hr hk ha hak hval
    obtain ⟨tok, htok⟩ := Option.isSome_iff_exists.mp ht
    obtain ⟨rep, hrep⟩ := Option.isSome_iff_exists.mp hr
    obtain ⟨key, hkey⟩ := Option.isSome_iff_exists.mp hk
    obtain ⟨ak, hka⟩ := Option.isSome_iff_exists.mp ha
    rw [hka, hkey] at hak
    obtain rfl : ak = key := by injection hak
    rcases hval with htitle | hbody
    · simp [postHandler, hm, htok, hrep, hkey, hka, htitle]
    · by_cases htitle : isBlank req.title = true
      · simp [postHandler, hm, htok, hrep, hkey, hka, htitle]
      · simp only [Bool.not_eq_true] at htitle
        simp [postHandler, hm, htok, hrep, hkey, hka, htitle, hbody]
  · intro env req c hm ht hr hk ha hak hval
    obtain ⟨tok, htok⟩ := Option.isSome_iff_exists.mp ht
    obtain ⟨rep, hrep⟩ := Option.isSome_iff_exists.mp hr
    obtain ⟨key, hkey⟩ := Option.isSome_iff_exists.mp hk
    obtain ⟨ak, hka⟩ := Option.isSome_iff_exists.mp ha
    rw [hka, hkey] at hak
    obtain rfl : ak = key := by injection hak
    by_cases htitle : isBlank req.title = true
    · simp [noteHandler, hm, htok, hrep, hkey, hka, htitle]
    · simp only [Bool.not_eq_true] at htitle
      by_cases hcontent : isBlank req.content = true
      · simp [noteHandler, hm, htok, hrep, hkey, hka, htitle, hcontent]
      · simp only [Bool.not_eq_true] at hcontent
        rcases hval with h | h | h | h
        · exact absurd h (by simp [htitle])
        · exact absurd h (by simp [hcontent])
        · simp [noteHandler, hm, htok, hrep, hkey, hka, htitle,
            hcontent, h]
        · simp [noteHandler, hm, htok, hrep, hkey, hka, htitle,
            hcontent, h]

/-- Witness for C5: an authenticated post request with a missing title and
an authenticated note request with an empty tags array are both answered
400 without reaching the commit. -/
theorem c5_validation_no_write_witness :
    (postHandler ⟨some "t", some "r", some "k", "production"⟩
        ⟨"POST", some "k", none, some "B"⟩ (.success "sha")).1.status = 400 ∧
    (postHandler ⟨some "t", some "r", some "k", "production"⟩
        ⟨"POST", some "k", none, some "B"⟩ (.success "sha")).2 = false ∧
    (noteHandler ⟨some "t", some "r", some "k", "production"⟩
        ⟨"POST", some "k", some "T", some "C", some []⟩
        (.success "sha")).1.status = 400 ∧
    (noteHandler ⟨some "t", some "r", some "k", "production"⟩
        ⟨"POST", some "k", some "T", some "C", some []⟩
        (.success "sha")).2 = false := by
  have hpost := c5_validation_no_write.1 ⟨some "t", some "r", some "k", "production"⟩
    ⟨"POST", some "k", none, some "B"⟩ (.success "sha") rfl rfl rfl rfl rfl rfl
    (Or.inl rfl)
  have hnote := c5_validation_no_write.2 ⟨some "t", some "r", some "k", "production"⟩
    ⟨"POST", some "k", some "T", some "C", some []⟩ (.success "sha") rfl rfl rfl
    rfl rfl rfl (Or.inr (Or.inr (Or.inr rfl)))
  exact ⟨hpost.1, hpost.2.2, hnote.1, hnote.2.2⟩

end ContentWrite

namespace ContentWrite

theorem mapCommitFailure_422 (env : Env) (msg : String) :
    mapCommitFailure env (some 422) msg =
      ⟨400, some "文件已存在或路径无效", none⟩ := rfl

theorem mapCommitFailure_403 (env : Env) (msg : String) :
    mapCommitFailure env (some 403) msg =
      ⟨403, some "GitHub 权限不足，请检查 token 权限", none⟩ := rfl

theorem mapCommitFailure_other (env : Env) (st : Option ℕ) (msg : String)
    (h22 : st ≠ some 422) (h43 : st ≠ some 403) :
    mapCommitFailure env st msg =
      ⟨500, some "服务器错误，请稍后重试",
        if env.nodeEnv == "development" then some msg else none⟩ := by
  have h1 : (st == some 422) = false := beq_eq_false_iff_ne.mpr h22
  have h2 : (st == some 403) = false := beq_eq_false_iff_ne.mpr h43
  simp [mapCommitFailure, h1, h2]

theorem mapCommitFailure_details (env : Env) (msg : String) :
    (if env.nodeEnv == "development" then some msg else none) = some msg ↔
      env.nodeEnv = "development" := by
  by_cases h : (env.nodeEnv == "development") = true
  · rw [if_pos h]
    simp only [beq_iff_eq] at h
    simp [h]
  · rw [if_neg h]
    simp only [beq_iff_eq] at h
    simp [h]

/-- C9: on an authenticated, fully-validated POST whose GitHub commit
throws, both handlers answer: 400 when the upstream status was 422, 403
with a generic message when it was 403, and otherwise 500 with the
diagnostic `details` field present if and only if `NODE_ENV` is
`development`. -/
theorem c9_failure_mapping :
    (∀ (env : Env) (req : PostReq) (st : Option ℕ) (msg : String),
      req.method = "POST" → env.githubToken.isSome = true →
      env.githubRepo.isSome = true → env.writeAccessKey.isSome = true →
      req.accessKey.isSome = true → req.accessKey = env.writeAccessKey →
      isBlank req.title = false → isBlank req.body = false →
      (st = some 422 →
        (postHandler env req (.failure st msg)).1.status = 400) ∧
      (st = some 403 →
        (postHandler env req (.failure st msg)).1 =
          ⟨403, some "GitHub 权限不足，请检查 token 权限", none⟩) ∧
      (st ≠ some 422 → st ≠ some 403 →
        (postHandler env req (.failure st msg)).1.status = 500 ∧
        ((postHandler env req (.failure st msg)).1.details = some msg ↔
          env.nodeEnv = "development"))) ∧
    (∀ (env : Env) (req : NoteReq) (st : Option ℕ) (msg : String),
      req.method = "POST" → env.githubToken.isSome = true →
      env.githubRepo.isSome = true → env.writeAccessKey.isSome = true →
      req.accessKey.isSome = true → req.accessKey = env.writeAccessKey →
      isBlank req.title = false → isBlank req.content = false →
      req.tags.isNone = false → (req.tags == some []) = false →
      (cleanedTags (req.tags.getD [])).isEmpty = false →
      (st = some 422 →
        (noteHandler env req (.failure st msg)).1.status = 400) ∧
      (st = some 403 →
        (noteHandler env req (.failure st msg)).1 =
          ⟨403, some "GitHub 权限不足，请检查 token 权限", none⟩) ∧
      (st ≠ some 422 → st ≠ some 403 →
        (noteHandler env req (.failure st msg)).1.status = 500 ∧
        ((noteHandler env req (.failure st msg)).1.details = some msg ↔
          env.nodeEnv = "development"))) := by
  constructor
  · intro env req st msg hm ht hr hk ha hak htitle hbody
    have hfail : postHandler env req (.failure st msg) =
        (mapCommitFailure env st msg, true) :=
      postHandler_reaches_commit env req (.failure st msg) hm ht hr hk ha hak
        htitle hbody
    refine ⟨?_, ?_, ?_⟩
    · rintro rfl
      rw [hfail, mapCommitFailure_422]
    · rintro rfl
      rw [hfail, mapCommitFailure_403]
    · intro h22 h43
      rw [hfail, mapCommitFailure_other env st msg h22 h43]
      exact ⟨rfl, mapCommitFailure_details env msg⟩
  · intro env req st msg hm ht hr hk ha hak htitle hcontent htags htags2 hclean
    have hfail : noteHandler env req (.failure st msg) =
        (mapCommitFailure env st msg, true) :=
      noteHandler_reaches_commit env req (.failure st msg) hm ht hr hk ha hak
        htitle hcontent htags htags2 hclean
    refine ⟨?_, ?_, ?_⟩
    · rintro rfl
      rw [hfail, mapCommitFailure_422]
    · rintro rfl
      rw [hfail, mapCommitFailure_403]
    · intro h22 h43
      rw [hfail, mapCommitFailure_other env st msg h22 h43]
      exact ⟨rfl, mapCommitFailure_details env msg⟩

/-- Witness for C9: a post request in a development environment whose
commit throws with status 500 is answered 500 with the diagnostic message
included; a note request whose commit throws with status 422 is answered
400. -/
theorem c9_failure_mapping_witness :
    (postHandler ⟨some "t", some "r", some "k", "development"⟩
        ⟨"POST", some "k", some "T", some "B"⟩
        (.failure (some 500) "boom")).1.status = 500 ∧
    (postHandler ⟨some "t", some "r", some "k", "development"⟩
        ⟨"POST", some "k", some "T", some "B"⟩
        (.failure (some 500) "boom")).1.details = some "boom" ∧
    (noteHandler ⟨some "t", some "r", some "k", "production"⟩
        ⟨"POST", some "k", some "T", some "C", some ["tag"]⟩
        (.failure (some 422) "dup")).1.status = 400 := by
  have hp := (c9_failure_mapping.1 ⟨some "t", some "r", some "k", "development"⟩
    ⟨"POST", some "k", some "T", some "B"⟩ (some 500) "boom" rfl rfl rfl rfl rfl
    rfl (by decide) (by decide)).2.2 (by decide) (by decide)
  refine ⟨hp.1, hp.2.mpr rfl, ?_⟩
  exact (c9_failure_mapping.2 ⟨some "t", some "r", some "k", "production"⟩
    ⟨"POST", some "k", some "T", some "C", some ["tag"]⟩ (some 422) "dup" rfl
    rfl rfl rfl rfl rfl (by decide) (by decide) (by decide) (by decide)
    (by decide)).1 rfl

theorem pathExists_iff_find? (repo : RepoState) (p : String) :
    pathExists repo p = (repo.find? (fun q => q.1 == p)).isSome := by
  induction repo with
  | nil => rfl
  | cons x rest ih =>
    by_cases h : (x.1 == p) = true
    · simp [pathExists, List.any_cons, h, List.find?_cons_of_pos _ h]
    · rw [List.find?_cons_of_neg _ (by simpa using h)]
      simp only [pathExists, List.any_cons, h, Bool.false_or] at ih ⊢
      exact ih

/-- C10: a successful post-creation commit never overwrites: the committed
path did not exist before, the new repository state is the old one with
exactly one fresh entry prepended, every other path resolves as before,
and when the requested path already existed the committed path is the
requested one with the timestamp suffix spliced in (the requested path
itself when it did not).  The timestamp suffix is the last six digits of
`Date.now()`. -/
theorem c10_fresh_path_commit :
    (∀ (repo : RepoState) (fp : String) (now : ℕ) (sha : String)
        (target : String) (repo' : RepoState),
      commitToGitHub repo fp now sha = Except.ok (target, repo') →
      pathExists repo target = false ∧
      repo' = (target, sha) :: repo ∧
      (∀ p : String, p ≠ target →
        repo'.find? (fun q => q.1 == p) = repo.find? (fun q => q.1 == p)) ∧
      (pathExists repo fp = true →
        target = suffixedPath fp (timestampSuffix now)) ∧
      (pathExists repo fp = false → target = fp)) ∧
    (∀ n : ℕ, 6 ≤ (toString n).length → (timestampSuffix n).length = 6) := by
  constructor
  · intro repo fp now sha target repo' h
    unfold commitToGitHub githubPut at h
    cases hf : repo.find? (fun q => q.1 == commitTargetPath repo fp now) with
    | some pr =>
      rw [hf] at h
      simp [Option.map_some', Except.map] at h
    | none =>
      rw [hf] at h
      simp only [Option.map_none', Except.map, Except.ok.injEq,
        Prod.mk.injEq] at h
      obtain ⟨h1, h2⟩ := h
      subst h1
      subst h2
      refine ⟨?_, rfl, ?_, ?_, ?_⟩
      · rw [pathExists_iff_find?, hf]
        rfl
      · intro p hp
        rw [List.find?_cons_of_neg]
        simp only [beq_iff_eq]
        exact Ne.symm hp
      · intro hex
        unfold commitTargetPath
        rw [if_pos hex]
      · intro hnex
        unfold commitTargetPath
        rw [if_neg (by simp [hnex])]
  · intro n h6
    simp only [timestampSuffix, String.length, List.length_drop]
    have h6' : 6 ≤ (toString n).data.length := h6
    omega

/-- Witness for C10 at a concrete repository: committing to an existing
path `_posts/a.md` lands on the fresh suffixed path `_posts/a-123456.md`,
prepends exactly one entry, and the suffix has six digits. -/
theorem c10_fresh_path_commit_witness :
    commitToGitHub [("_posts/a.md", "s0")] "_posts/a.md" 1700000123456 "s1" =
      Except.ok ("_posts/a-123456.md",
        [("_posts/a-123456.md", "s1"), ("_posts/a.md", "s0")]) ∧
    pathExists [("_posts/a.md", "s0")] "_posts/a-123456.md" = false ∧
    (timestampSuffix 1700000123456).length = 6 := by
  have hcommit : commitToGitHub [("_posts/a.md", "s0")] "_posts/a.md"
      1700000123456 "s1" =
      Except.ok ("_posts/a-123456.md",
        [("_posts/a-123456.md", "s1"), ("_posts/a.md", "s0")]) := rfl
  refine ⟨hcommit, ?_, ?_⟩
  · exact (c10_fresh_path_commit.1 [("_posts/a.md", "s0")] "_posts/a.md"
      1700000123456 "s1" "_posts/a-123456.md"
      [("_posts/a-123456.md", "s1"), ("_posts/a.md", "s0")] hcommit).1
  · exact c10_fresh_path_commit.2 1700000123456 (by decide)

end ContentWrite
